import Mathlib

/-!
Shallow embedding of the request-authentication core of the `openwalrus/mcp`
repository (crate `rmcp-axum`, module `auth`): the Bearer/API-key credential
extractors, the JWT validator with its JWKS key-rotation cache, the
authentication middleware, and the OAuth error responder.

The Rust modules embedded here are:
  * `src/rmcp/axum/src/auth/jwt.rs`    — `JwtValidator`, `Audience`, claims
    normalization, lazy JWKS refresh-and-retry;
  * `src/rmcp/axum/src/auth/mod.rs`    — `AuthLayer` / `AuthService` middleware
    (the live module: it declares `mod bearer; pub mod oauth; pub mod jwt;`,
    the stale sibling file `auth.rs` does not);
  * `src/rmcp/axum/src/auth/bearer.rs` — `BearerAuth`;
  * `src/rmcp/axum/src/auth/oauth/error.rs` — `ResourceServerConfig`,
    `www_authenticate_401`, `www_authenticate_403`.

External effects (the HTTPS fetch of the JWKS document, the cryptographic
signature check done by the `jsonwebtoken` crate) are modelled as explicit
inputs: a `validate` call receives the fetch outcome that the network would
have produced, and a token carries the outcome that `jsonwebtoken::decode`
would produce for each verification key.
-/

namespace Mcp

/-! ### String helpers mirroring the Rust standard library -/

/-- Mirrors `str::strip_prefix` on character lists: `some rest` when the first
argument is a prefix, `none` otherwise. -/
def stripPrefixChars : List Char → List Char → Option (List Char)
  | [], s => some s
  | _ :: _, [] => none
  | p :: ps, c :: cs => if p = c then stripPrefixChars ps cs else none

/-- Mirrors `str::strip_prefix` on strings. -/
def stripPrefixStr (p s : String) : Option String :=
  (stripPrefixChars p.data s.data).map List.asString

/-- The Unicode `White_Space` property, the predicate used by Rust's
`char::is_whitespace` and hence by `str::split_whitespace`. -/
def rustIsWhitespace (c : Char) : Bool :=
  [0x09, 0x0A, 0x0B, 0x0C, 0x0D, 0x20, 0x85, 0xA0, 0x1680,
   0x2000, 0x2001, 0x2002, 0x2003, 0x2004, 0x2005, 0x2006, 0x2007,
   0x2008, 0x2009, 0x200A, 0x2028, 0x2029, 0x202F, 0x205F, 0x3000].contains c.toNat

/-- Worker for `splitWhitespace`: `acc` holds the current in-progress word in
reverse order. -/
def splitWsAux : List Char → List Char → List String
  | [], acc => if acc = [] then [] else [acc.reverse.asString]
  | c :: rest, acc =>
    if rustIsWhitespace c then
      if acc = [] then splitWsAux rest []
      else acc.reverse.asString :: splitWsAux rest []
    else splitWsAux rest (c :: acc)

/-- Mirrors `str::split_whitespace().map(String::from).collect()`: maximal runs
of non-whitespace characters, in order. -/
def splitWhitespace (s : String) : List String :=
  splitWsAux s.data []

/-- Mirrors `str::contains(needle)` on character lists. -/
def containsSub (needle : List Char) : List Char → Bool
  | [] => needle.isEmpty
  | c :: rest => needle.isPrefixOf (c :: rest) || containsSub needle rest

/-- Mirrors `str::contains` on strings, as used by
`format!("{e}").contains("no matching key")` in `JwtValidator::validate`. -/
def strContainsSub (hay needle : String) : Bool :=
  containsSub needle.data hay.data

/-! ### Data model of `jwt.rs` -/

/-- The audience claim as deserialized from the token payload
(`#[serde(untagged)] enum Audience`). -/
inductive Audience : Type
  | Single (s : String)
  | Multiple (v : List String)
deriving DecidableEq, Repr

/-- Mirrors `Audience::into_vec`. -/
def Audience.into_vec : Audience → List String
  | .Single s => [s]
  | .Multiple v => v

/-- Raw JWT claims deserialized from the token payload (`struct RawClaims`). -/
structure RawClaims : Type where
  sub : Option String
  iss : Option String
  aud : Option Audience
  scope : Option String
  exp : Option Nat
deriving DecidableEq, Repr

/-- Normalized OAuth claims (`struct OAuthClaims`). -/
structure OAuthClaims : Type where
  sub : String
  iss : Option String
  aud : Option (List String)
  scope : List String
  exp : Option Nat
deriving DecidableEq, Repr

/-- The final expression of `JwtValidator::decode_token`: building the
`OAuthClaims` record from the raw deserialized claims. -/
def normalizeClaims (raw : RawClaims) : OAuthClaims :=
  { sub := raw.sub.getD ""
    iss := raw.iss
    aud := raw.aud.map Audience.into_vec
    scope := (raw.scope.map splitWhitespace).getD []
    exp := raw.exp }

/-- A verification key of the cached JWKS. `key_id` mirrors
`jwk.common.key_id`; `valid_key` records whether `DecodingKey::from_jwk`
succeeds on this key. -/
structure Jwk : Type where
  key_id : Option String
  valid_key : Bool

/-- Mirrors `jsonwebtoken::jwk::JwkSet::find`: the first key whose `key_id`
equals the requested `kid`. -/
def jwkSetFind (jwks : List Jwk) (kid : String) : Option Jwk :=
  jwks.find? (fun jwk => jwk.key_id = some kid)

/-- The JWT header as returned by `jsonwebtoken::decode_header`; only the
`kid` field is consulted by `decode_token`. -/
structure JwtHeader : Type where
  kid : Option String

/-- A token, described by the outcomes the `jsonwebtoken` crate produces for
it: `header` is the result of `decode_header` (`none` = malformed header), and
`decode_result jwk` is the result of `jsonwebtoken::decode` with the key built
from `jwk` under the validator's fixed `Validation` policy (`none` = signature
or standard-claims check failed, `some raw` = verified payload). -/
structure Token : Type where
  header : Option JwtHeader
  decode_result : Jwk → Option RawClaims

/-- The errors `decode_token` / `validate` can produce, one constructor per
`anyhow` error site in `jwt.rs`. -/
inductive JwtError : Type
  | invalidHeader
  | missingKid
  | noMatchingKey (kid : String)
  | invalidJwk
  | validationFailed
  | refreshFailed
deriving DecidableEq, Repr

/-- The `Display` rendering of each error, as produced by `format!("{e}")` on
the `anyhow::Error` (outermost context message only). -/
def JwtError.display : JwtError → String
  | .invalidHeader => "invalid JWT header"
  | .missingKid => "JWT missing kid header"
  | .noMatchingKey kid => "no matching key for kid: " ++ kid
  | .invalidJwk => "invalid JWK"
  | .validationFailed => "JWT validation failed"
  | .refreshFailed => "JWKS refresh failed"

/-- Mirrors `JwtValidator::decode_token`: decode the header, require a `kid`,
look the key up in the given JWKS, build the decoding key, run
`jsonwebtoken::decode`, and normalize the claims. -/
def decodeToken (token : Token) (jwks : List Jwk) : Except JwtError OAuthClaims :=
  match token.header with
  | none => .error .invalidHeader
  | some header =>
    match header.kid with
    | none => .error .missingKid
    | some kid =>
      match jwkSetFind jwks kid with
      | none => .error (.noMatchingKey kid)
      | some jwk =>
        if jwk.valid_key then
          match token.decode_result jwk with
          | none => .error .validationFailed
          | some raw => .ok (normalizeClaims raw)
        else .error .invalidJwk

/-- Mirrors `JwtValidator::refresh_jwks` run against a given fetch outcome:
on fetch success the cache is replaced wholesale, on fetch failure the error
propagates and the cache is untouched. Returns (operation result, cache
afterwards). -/
def refreshJwks (cache : List Jwk) (fetch : Except Unit (List Jwk)) :
    Except Unit Unit × List Jwk :=
  match fetch with
  | .error e => (.error e, cache)
  | .ok jwks => (.ok (), jwks)

/-- Outcome of one `JwtValidator::validate` call: the returned value, the
cache contents after the call, and how many JWKS fetches were performed. -/
structure ValidateOutcome : Type where
  result : Except JwtError OAuthClaims
  finalJwks : List Jwk
  refreshCount : Nat

/-- Mirrors `<JwtValidator as Validator>::validate`: try the current cache;
on an error whose display contains `"no matching key"`, refresh once and retry
once; any other error propagates unchanged; no second refresh ever happens.
`fetch` is the outcome the JWKS endpoint would deliver to the one refresh this
call may perform. -/
def jwtValidate (token : Token) (cache : List Jwk)
    (fetch : Except Unit (List Jwk)) : ValidateOutcome :=
  match decodeToken token cache with
  | .ok claims => ⟨.ok claims, cache, 0⟩
  | .error e =>
    if strContainsSub e.display "no matching key" = false then
      ⟨.error e, cache, 0⟩
    else
      match refreshJwks cache fetch with
      | (.error _, c) => ⟨.error .refreshFailed, c, 1⟩
      | (.ok _, newCache) => ⟨decodeToken token newCache, newCache, 1⟩

/-! ### `oauth/error.rs` — OAuth error responder -/

/-- Mirrors `struct ResourceServerConfig`. -/
structure ResourceServerConfig : Type where
  resource_metadata_url : String
  default_scope : Option String
deriving DecidableEq, Repr

/-- Mirrors `www_authenticate_401`: the header value for a 401 challenge.
(`HeaderValue` is modelled as the string it wraps.) -/
def wwwAuthenticate401 (config : ResourceServerConfig) : String :=
  let value := "Bearer resource_metadata=\"" ++ config.resource_metadata_url ++ "\""
  match config.default_scope with
  | some scope => value ++ ", scope=\"" ++ scope ++ "\""
  | none => value

/-- Mirrors `www_authenticate_403`: the header value for a 403
insufficient-scope challenge. -/
def wwwAuthenticate403 (config : ResourceServerConfig) (required_scope : String) : String :=
  "Bearer error=\"insufficient_scope\", scope=\"" ++ required_scope ++
    "\", resource_metadata=\"" ++ config.resource_metadata_url ++ "\""

/-! ### `auth/mod.rs` — middleware, and `bearer.rs` — Bearer extraction

`http::request::Parts` is modelled with its method, URI, headers and
extensions; the extensions map is type-keyed with at most one value per type,
so the slot for the middleware's `Claims` type is an `Option C`. Header names
are stored lowercased, as the `http` crate normalizes them. -/

/-- Request head (`http::request::Parts`). -/
structure Parts (C : Type) : Type where
  method : String
  uri : String
  headers : List (String × String)
  claimsExt : Option C

/-- A request: head plus body (`http::Request<B>`). -/
structure HttpRequest (C B : Type) : Type where
  parts : Parts C
  body : B

/-- A response (`http::Response<axum::body::Body>`), body rendered as the
string the middleware writes into it. -/
structure HttpResponse : Type where
  status : Nat
  headers : List (String × String)
  body : String
deriving DecidableEq, Repr

/-- Mirrors `headers.get(name).and_then(|v| v.to_str().ok())`: the first
value stored under the (lowercased) header name. -/
def headerGet (headers : List (String × String)) (name : String) : Option String :=
  (headers.find? (fun p => p.1 = name)).map Prod.snd

/-- Mirrors the extraction step of `BearerAuth::authenticate`: the
`Authorization` header value with the `"Bearer "` prefix stripped, or the one
combined error used for both the absent-header and wrong-prefix cases. -/
def bearerToken (headers : List (String × String)) : Except String String :=
  match (headerGet headers "authorization").bind (stripPrefixStr "Bearer ") with
  | none => .error "missing or malformed Authorization header"
  | some token => .ok token

/-- Mirrors `<BearerAuth<V> as Authenticator>::authenticate`: extract the
Bearer token, pass it to the inner validator, render the validator's error
with its `Display` (`dispE`). -/
def bearerAuthenticate {C E : Type} (dispE : E → String)
    (validate : String → Except E C) (parts : Parts C) : Except String C :=
  match bearerToken parts.headers with
  | .error e => .error e
  | .ok token =>
    match validate token with
    | .ok c => .ok c
    | .error e => .error (dispE e)

/-- Mirrors `<AuthService<A, S> as Service>::call` from `auth/mod.rs`:
run the authenticator on the request head; on success insert the claims into
the request extensions and call the wrapped service; on failure short-circuit
with a 401 whose body is the error's display string, adding the
`WWW-Authenticate` challenge when a `ResourceServerConfig` is set. The
authenticator's error is modelled as its display string; `inner` may fail with
the wrapped service's transport error `E`. -/
def authServiceCall {C B E : Type}
    (authenticate : Parts C → Except String C)
    (resource_server : Option ResourceServerConfig)
    (inner : HttpRequest C B → Except E HttpResponse)
    (req : HttpRequest C B) : Except E HttpResponse :=
  match authenticate req.parts with
  | .ok claims =>
    inner { req with parts := { req.parts with claimsExt := some claims } }
  | .error err =>
    .ok { status := 401
          headers := match resource_server with
            | some config => [("www-authenticate", wwwAuthenticate401 config)]
            | none => []
          body := err }

/-! ### Helper lemmas -/

theorem asString_data (s : String) : s.data.asString = s := by
  cases s
  rfl

theorem stripPrefixChars_append (p s : List Char) :
    stripPrefixChars p (p ++ s) = some s := by
  induction p with
  | nil => rfl
  | cons c cs ih => simp [stripPrefixChars, ih]

theorem stripPrefixStr_append (p s : String) :
    stripPrefixStr p (p ++ s) = some s := by
  unfold stripPrefixStr
  rw [String.data_append, stripPrefixChars_append]
  simp [asString_data]

theorem isPrefixOf_append_left (p a b : List Char)
    (h : p.isPrefixOf a = true) : p.isPrefixOf (a ++ b) = true := by
  simp only [List.isPrefixOf_iff_prefix] at h ⊢
  exact h.trans (List.prefix_append a b)

theorem containsSub_of_isPrefixOf (needle hay : List Char)
    (h : needle.isPrefixOf hay = true) : containsSub needle hay = true := by
  cases hay with
  | nil =>
    cases needle with
    | nil => rfl
    | cons c cs => simp [List.isPrefixOf] at h
  | cons c rest => simp [containsSub, h]

theorem noMatchingKey_display_contains (k : String) :
    strContainsSub (JwtError.display (.noMatchingKey k)) "no matching key" = true := by
  show containsSub ("no matching key").data ("no matching key for kid: " ++ k).data = true
  rw [String.data_append]
  exact containsSub_of_isPrefixOf _ _
    (isPrefixOf_append_left _ _ _ (by decide))

theorem splitWsAux_tokens_ne_empty (l : List Char) :
    ∀ (acc : List Char) (t : String), t ∈ splitWsAux l acc → t ≠ "" := by
  induction l with
  | nil =>
    intro acc t ht
    unfold splitWsAux at ht
    by_cases hacc : acc = []
    · simp [hacc] at ht
    · simp [hacc] at ht
      subst ht
      intro habs
      apply hacc
      have : acc.reverse = ("" : String).data := by
        rw [← habs]
        simp [List.asString]
      simpa using this
  | cons c rest ih =>
    intro acc t ht
    unfold splitWsAux at ht
    by_cases hws : rustIsWhitespace c
    · by_cases hacc : acc = []
      · simp [hws, hacc] at ht
        exact ih [] t ht
      · simp [hws, hacc] at ht
        rcases ht with ht | ht
        · subst ht
          intro habs
          apply hacc
          have : acc.reverse = ("" : String).data := by
            rw [← habs]
            simp [List.asString]
          simpa using this
        · exact ih [] t ht
    · simp [hws] at ht
      exact ih (c :: acc) t ht

theorem splitWhitespace_tokens_ne_empty (s : String) :
    ∀ t ∈ splitWhitespace s, t ≠ "" := by
  intro t ht
  exact splitWsAux_tokens_ne_empty s.data [] t ht

/-! ### Claim theorems -/

/-- C8: the OAuth error responder is a pure function of its inputs producing
exact challenge strings — the 401 challenge is
`Bearer resource_metadata="<metadata-url>"`, with `, scope="<default-scope>"`
appended exactly when a default scope is configured, and the 403 challenge is
`Bearer error="insufficient_scope", scope="<required-scope>",
resource_metadata="<metadata-url>"`. -/
theorem oauth_challenge_format (config : ResourceServerConfig) (required_scope : String) :
    (config.default_scope = none →
      wwwAuthenticate401 config =
        "Bearer resource_metadata=\"" ++ config.resource_metadata_url ++ "\"") ∧
    (∀ s, config.default_scope = some s →
      wwwAuthenticate401 config =
        "Bearer resource_metadata=\"" ++ config.resource_metadata_url ++
          "\", scope=\"" ++ s ++ "\"") ∧
    wwwAuthenticate403 config required_scope =
      "Bearer error=\"insufficient_scope\", scope=\"" ++ required_scope ++
        "\", resource_metadata=\"" ++ config.resource_metadata_url ++ "\"" := by
  refine ⟨?_, ?_, rfl⟩
  · intro hnone
    simp [wwwAuthenticate401, hnone]
  · intro s hs
    simp only [wwwAuthenticate401, hs]
    congr 1
    congr 1
    rw [String.append_assoc]
    congr 1

/-- Witness for C8: the spec's own examples evaluate to the exact strings. -/
theorem oauth_challenge_format_witness :
    wwwAuthenticate401 ⟨"https://r", some "mcp:tools"⟩ =
      "Bearer resource_metadata=\"https://r\", scope=\"mcp:tools\"" ∧
    wwwAuthenticate403 ⟨"https://r", some "mcp:tools"⟩ "files:write" =
      "Bearer error=\"insufficient_scope\", scope=\"files:write\", resource_metadata=\"https://r\"" := by
  have h := oauth_challenge_format ⟨"https://r", some "mcp:tools"⟩ "files:write"
  exact ⟨(h.2.1 "mcp:tools" rfl).trans (by decide), h.2.2.trans (by decide)⟩

/-- C5 counterexample: the claim asserts that the absent-header failure
(`MissingCredential`) and the wrong-prefix failure (`MalformedCredential`) are
distinct errors; in `BearerAuth::authenticate` both paths produce the one
identical error value `"missing or malformed Authorization header"`, shown
here at the concrete inputs `[]` (no header) and `Authorization: Basic abc`
(header present, wrong prefix). -/
theorem bearer_errors_not_distinct :
    bearerToken [] = .error "missing or malformed Authorization header" ∧
    bearerToken [("authorization", "Basic abc")] =
      .error "missing or malformed Authorization header" :=
  ⟨rfl, rfl⟩

/-- C5 (amended): Bearer credential extraction fails with the single combined
error `"missing or malformed Authorization header"` both when the
`Authorization` header is absent and when it is present but not prefixed with
`"Bearer "` (the two failure cases are not distinguished); otherwise it yields
the suffix after the prefix as the credential. -/
theorem bearer_extraction_cases (headers : List (String × String)) :
    (headerGet headers "authorization" = none →
      bearerToken headers = .error "missing or malformed Authorization header") ∧
    (∀ v, headerGet headers "authorization" = some v →
      stripPrefixStr "Bearer " v = none →
      bearerToken headers = .error "missing or malformed Authorization header") ∧
    (∀ t, headerGet headers "authorization" = some ("Bearer " ++ t) →
      bearerToken headers = .ok t) := by
  refine ⟨?_, ?_, ?_⟩
  · intro hnone
    simp [bearerToken, hnone]
  · intro v hv hstrip
    simp [bearerToken, hv, hstrip]
  · intro t ht
    simp [bearerToken, ht, stripPrefixStr_append]

/-- Witness for C5's amended theorem: concrete absent-header, wrong-prefix and
well-formed requests. -/
theorem bearer_extraction_cases_witness :
    bearerToken [("content-type", "text/json")] =
      .error "missing or malformed Authorization header" ∧
    bearerToken [("authorization", "Basic xyz")] =
      .error "missing or malformed Authorization header" ∧
    bearerToken [("authorization", "Bearer tok123")] = .ok "tok123" := by
  refine ⟨(bearer_extraction_cases _).1 rfl,
          (bearer_extraction_cases _).2.1 "Basic xyz" rfl rfl,
          ?_⟩
  have h := (bearer_extraction_cases [("authorization", "Bearer tok123")]).2.2 "tok123"
  exact h (by decide)

/-- C10: for a request whose `Authorization` header value is exactly
`"Bearer "`, extraction does not fail: it succeeds with the empty string, and
`BearerAuth::authenticate` passes the empty string as the credential to the
inner validator, whose (display-mapped) verdict becomes the result. -/
theorem bearer_empty_credential :
    bearerToken [("authorization", "Bearer ")] = .ok "" ∧
    ∀ (C E : Type) (dispE : E → String) (validate : String → Except E C)
      (m u : String) (ext : Option C),
      bearerAuthenticate dispE validate ⟨m, u, [("authorization", "Bearer ")], ext⟩ =
        (validate "").mapError dispE := by
  refine ⟨rfl, ?_⟩
  intro C E dispE validate m u ext
  unfold bearerAuthenticate
  rw [show bearerToken [("authorization", "Bearer ")] = .ok "" from rfl]
  cases hv : validate "" <;> simp [hv, Except.mapError]

/-- C6 counterexample: the claim asserts an audience given as a list is
preserved "as a non-empty sequence", but `Audience::into_vec` preserves the
empty list as the empty sequence: a payload with `aud: []` normalizes to an
empty audience sequence. -/
theorem audience_empty_list_not_nonempty :
    (normalizeClaims ⟨none, none, some (.Multiple []), none, none⟩).aud = some [] :=
  rfl

/-- C6 (amended): claims normalization in JWT decoding — a scope claim given
as a space-delimited string is split on whitespace into an ordered sequence of
non-empty tokens, an absent scope becomes the empty sequence; an audience
given as a single string `x` becomes `[x]`, and an audience given as a list is
preserved unchanged in order (hence non-empty exactly when the given list is
non-empty). -/
theorem claims_normalization (raw : RawClaims) :
    (raw.scope = none → (normalizeClaims raw).scope = []) ∧
    (∀ s, raw.scope = some s →
      (normalizeClaims raw).scope = splitWhitespace s ∧
      ∀ t ∈ (normalizeClaims raw).scope, t ≠ "") ∧
    (∀ x, raw.aud = some (.Single x) → (normalizeClaims raw).aud = some [x]) ∧
    (∀ v, raw.aud = some (.Multiple v) →
      (normalizeClaims raw).aud = some v ∧
      (v ≠ [] → (normalizeClaims raw).aud ≠ some [])) := by
  refine ⟨?_, ?_, ?_, ?_⟩
  · intro hnone
    simp [normalizeClaims, hnone]
  · intro s hs
    refine ⟨by simp [normalizeClaims, hs], ?_⟩
    intro t ht
    simp [normalizeClaims, hs] at ht
    exact splitWhitespace_tokens_ne_empty s t ht
  · intro x hx
    simp [normalizeClaims, hx, Audience.into_vec]
  · intro v hv
    refine ⟨by simp [normalizeClaims, hv, Audience.into_vec], ?_⟩
    intro hne
    simp [normalizeClaims, hv, Audience.into_vec]
    exact hne

/-- Witness for C6's amended theorem: the spec's own examples — scope
`"a b c"` splits to `["a", "b", "c"]`, audience `"x"` becomes `["x"]`, list
audience `["x", "y"]` is preserved, absent scope becomes `[]`. -/
theorem claims_normalization_witness :
    (normalizeClaims ⟨none, none, some (.Single "x"), some "a b c", none⟩).scope =
      splitWhitespace "a b c" ∧
    splitWhitespace "a b c" = ["a", "b", "c"] ∧
    (normalizeClaims ⟨none, none, some (.Single "x"), some "a b c", none⟩).aud =
      some ["x"] ∧
    (normalizeClaims ⟨none, none, some (.Multiple ["x", "y"]), none, none⟩).aud =
      some ["x", "y"] ∧
    (normalizeClaims ⟨none, none, some (.Multiple ["x", "y"]), none, none⟩).scope = [] := by
  refine ⟨((claims_normalization _).2.1 "a b c" rfl).1, by decide,
          (claims_normalization _).2.2.1 "x" rfl,
          ((claims_normalization _).2.2.2 ["x", "y"] rfl).1,
          (claims_normalization _).1 rfl⟩

/-- C7: for every token that passes the header, key-lookup, key-construction
and signature/policy checks, a missing `sub` claim never causes validation to
fail — `decode_token` succeeds and the resulting claims carry the empty string
as subject. -/
theorem missing_sub_defaults_empty (token : Token) (jwks : List Jwk)
    (h : JwtHeader) (k : String) (jwk : Jwk) (raw : RawClaims)
    (hh : token.header = some h) (hk : h.kid = some k)
    (hfind : jwkSetFind jwks k = some jwk) (hvk : jwk.valid_key = true)
    (hdec : token.decode_result jwk = some raw) (hsub : raw.sub = none) :
    decodeToken token jwks = .ok (normalizeClaims raw) ∧
    (normalizeClaims raw).sub = "" := by
  constructor
  · simp [decodeToken, hh, hk, hfind, hvk, hdec]
  · simp [normalizeClaims, hsub]

/-- Witness for C7: a concrete token with no `sub` claim validates against a
concrete one-key JWKS and yields the empty subject. -/
theorem missing_sub_witness :
    decodeToken ⟨some ⟨some "k1"⟩, fun _ => some ⟨none, none, none, none, none⟩⟩
        [⟨some "k1", true⟩] =
      .ok (normalizeClaims ⟨none, none, none, none, none⟩) ∧
    (normalizeClaims ⟨none, none, none, none, none⟩).sub = "" :=
  missing_sub_defaults_empty _ _ ⟨some "k1"⟩ "k1" ⟨some "k1", true⟩ _
    rfl rfl rfl rfl rfl rfl

/-- C3: for every request rejected by the authenticator, the middleware
responds with status 401, and when a `ResourceServerConfig` is configured the
response carries the `WWW-Authenticate` challenge header built by the OAuth
error responder (`www_authenticate_401`). -/
theorem auth_reject_challenge {C B E : Type}
    (authenticate : Parts C → Except String C)
    (rs : Option ResourceServerConfig)
    (inner : HttpRequest C B → Except E HttpResponse)
    (req : HttpRequest C B) (err : String)
    (hrej : authenticate req.parts = .error err) :
    (∃ resp, authServiceCall authenticate rs inner req = .ok resp ∧
      resp.status = 401) ∧
    (∀ config, rs = some config →
      authServiceCall authenticate rs inner req =
        .ok ⟨401, [("www-authenticate", wwwAuthenticate401 config)], err⟩) := by
  constructor
  · refine ⟨⟨401,
      (match rs with
       | some config => [("www-authenticate", wwwAuthenticate401 config)]
       | none => []),
      err⟩, ?_, rfl⟩
    simp [authServiceCall, hrej]
  · intro config hc
    simp [authServiceCall, hrej, hc]

/-- Witness for C3: a concrete rejected request against a configured resource
server receives the 401 with the challenge header. -/
theorem auth_reject_challenge_witness :
    authServiceCall (fun (_ : Parts Nat) => Except.error "bad")
        (some ⟨"https://r", none⟩)
        (fun (_ : HttpRequest Nat String) =>
          (Except.ok ⟨200, [], "hi"⟩ : Except Unit HttpResponse))
        ⟨⟨"GET", "/mcp", [], none⟩, "body"⟩ =
      .ok ⟨401, [("www-authenticate", wwwAuthenticate401 ⟨"https://r", none⟩)], "bad"⟩ :=
  (auth_reject_challenge (fun _ => Except.error "bad") (some ⟨"https://r", none⟩)
    _ ⟨⟨"GET", "/mcp", [], none⟩, "body"⟩ "bad" rfl).2 _ rfl

/-- C4: for every request on which the authenticator errs, the middleware
returns a response with status exactly 401 (never any 5xx) whose body is
exactly the error's display string, and the wrapped inner service is never
invoked — the outcome is the same whatever inner service is installed. -/
theorem auth_reject_401_no_inner {C B E : Type}
    (authenticate : Parts C → Except String C)
    (rs : Option ResourceServerConfig)
    (inner : HttpRequest C B → Except E HttpResponse)
    (req : HttpRequest C B) (err : String)
    (hrej : authenticate req.parts = .error err) :
    authServiceCall authenticate rs inner req =
      .ok ⟨401,
           (match rs with
            | some config => [("www-authenticate", wwwAuthenticate401 config)]
            | none => []),
           err⟩ ∧
    ∀ inner2 : HttpRequest C B → Except E HttpResponse,
      authServiceCall authenticate rs inner2 req =
        authServiceCall authenticate rs inner req := by
  constructor
  · simp [authServiceCall, hrej]
  · intro inner2
    simp [authServiceCall, hrej]

/-- Witness for C4: a concrete rejected request yields exactly the 401 with
the error display string as body, identically for two different inner
services. -/
theorem auth_reject_401_no_inner_witness :
    authServiceCall (fun (_ : Parts Nat) => Except.error "expired token")
        none
        (fun (_ : HttpRequest Nat String) =>
          (Except.ok ⟨200, [], "hi"⟩ : Except Unit HttpResponse))
        ⟨⟨"POST", "/mcp", [("authorization", "Bearer x")], none⟩, "b"⟩ =
      .ok ⟨401, [], "expired token"⟩ ∧
    authServiceCall (fun (_ : Parts Nat) => Except.error "expired token")
        none
        (fun (_ : HttpRequest Nat String) =>
          (Except.ok ⟨500, [], "boom"⟩ : Except Unit HttpResponse))
        ⟨⟨"POST", "/mcp", [("authorization", "Bearer x")], none⟩, "b"⟩ =
      .ok ⟨401, [], "expired token"⟩ := by
  have h := auth_reject_401_no_inner (fun (_ : Parts Nat) => Except.error "expired token")
    none
    (fun (_ : HttpRequest Nat String) =>
      (Except.ok ⟨200, [], "hi"⟩ : Except Unit HttpResponse))
    ⟨⟨"POST", "/mcp", [("authorization", "Bearer x")], none⟩, "b"⟩ "expired token" rfl
  exact ⟨h.1, (h.2 _).trans h.1⟩

/-- C9: for every request on which the authenticator succeeds, the middleware
invokes the wrapped service on the same request with the claims inserted into
the request extensions and method, URI, headers and body unchanged. -/
theorem auth_success_forwards {C B E : Type}
    (authenticate : Parts C → Except String C)
    (rs : Option ResourceServerConfig)
    (inner : HttpRequest C B → Except E HttpResponse)
    (req : HttpRequest C B) (claims : C)
    (hok : authenticate req.parts = .ok claims) :
    authServiceCall authenticate rs inner req =
      inner ⟨⟨req.parts.method, req.parts.uri, req.parts.headers, some claims⟩,
             req.body⟩ := by
  obtain ⟨⟨m, u, hs, ext⟩, body⟩ := req
  simp [authServiceCall] at hok ⊢
  rw [hok]

/-- Witness for C9: a concrete accepted request is forwarded with the claims
extension set and everything else intact. -/
theorem auth_success_forwards_witness :
    authServiceCall (fun (_ : Parts Nat) => Except.ok 7)
        none
        (fun (r : HttpRequest Nat String) =>
          (Except.ok ⟨200, r.parts.headers, r.body⟩ : Except Unit HttpResponse))
        ⟨⟨"GET", "/mcp", [("x", "y")], none⟩, "payload"⟩ =
      .ok ⟨200, [("x", "y")], "payload"⟩ :=
  (auth_success_forwards (fun _ => Except.ok 7) none _
    ⟨⟨"GET", "/mcp", [("x", "y")], none⟩, "payload"⟩ 7 rfl).trans rfl

theorem decodeToken_of_find_none (token : Token) (jwks : List Jwk)
    (h : JwtHeader) (k : String)
    (hh : token.header = some h) (hk : h.kid = some k)
    (hmiss : jwkSetFind jwks k = none) :
    decodeToken token jwks = .error (.noMatchingKey k) := by
  simp [decodeToken, hh, hk, hmiss]

theorem jwtValidate_refreshCount_le_one (t : Token) (c : List Jwk)
    (f : Except Unit (List Jwk)) :
    (jwtValidate t c f).refreshCount ≤ 1 := by
  unfold jwtValidate
  cases decodeToken t c with
  | ok claims => simp
  | error e =>
    by_cases hc : strContainsSub e.display "no matching key" = false
    · simp [hc]
    · simp only [hc, if_false]
      cases f <;> simp [refreshJwks]

/-- C1: for every token whose `kid` is absent from the currently cached key
set, `validate` performs exactly one refresh — the fetched set replaces the
cache wholesale — and then repeats the decode-and-lookup exactly once against
the new set; if the `kid` is still absent the call fails with the
key-not-found error; and no execution of a single `validate` call, on any
input, performs a second refresh. -/
theorem validate_unknown_kid_single_refresh
    (token : Token) (h : JwtHeader) (k : String)
    (cache newSet : List Jwk)
    (hh : token.header = some h) (hk : h.kid = some k)
    (hmiss : jwkSetFind cache k = none) :
    (jwtValidate token cache (.ok newSet)).refreshCount = 1 ∧
    (jwtValidate token cache (.ok newSet)).finalJwks = newSet ∧
    (jwtValidate token cache (.ok newSet)).result = decodeToken token newSet ∧
    (jwkSetFind newSet k = none →
      (jwtValidate token cache (.ok newSet)).result = .error (.noMatchingKey k)) ∧
    (jwtValidate token cache (.error ())).refreshCount = 1 ∧
    ∀ (t : Token) (c : List Jwk) (f : Except Unit (List Jwk)),
      (jwtValidate t c f).refreshCount ≤ 1 := by
  have hdec := decodeToken_of_find_none token cache h k hh hk hmiss
  have hcon := noMatchingKey_display_contains k
  have hok : jwtValidate token cache (.ok newSet) =
      ⟨decodeToken token newSet, newSet, 1⟩ := by
    unfold jwtValidate
    rw [hdec]
    simp [hcon, refreshJwks]
  have herr : (jwtValidate token cache (.error ())).refreshCount = 1 := by
    unfold jwtValidate
    rw [hdec]
    simp [hcon, refreshJwks]
  refine ⟨by rw [hok], by rw [hok], by rw [hok], ?_, herr,
    jwtValidate_refreshCount_le_one⟩
  intro hmiss2
  rw [hok]
  exact decodeToken_of_find_none token newSet h k hh hk hmiss2

/-- Witness for C1: a concrete token with `kid` `"k1"` against an empty cache
and a refresh that yields another set without `"k1"`: one refresh, and the
key-not-found error. -/
theorem validate_unknown_kid_witness :
    (jwtValidate ⟨some ⟨some "k1"⟩, fun _ => none⟩ [] (.ok [⟨some "k2", true⟩])).refreshCount = 1 ∧
    (jwtValidate ⟨some ⟨some "k1"⟩, fun _ => none⟩ [] (.ok [⟨some "k2", true⟩])).finalJwks =
      [⟨some "k2", true⟩] ∧
    (jwtValidate ⟨some ⟨some "k1"⟩, fun _ => none⟩ [] (.ok [⟨some "k2", true⟩])).result =
      .error (.noMatchingKey "k1") := by
  have h := validate_unknown_kid_single_refresh ⟨some ⟨some "k1"⟩, fun _ => none⟩
    ⟨some "k1"⟩ "k1" [] [⟨some "k2", true⟩] rfl rfl rfl
  exact ⟨h.1, h.2.1, h.2.2.2.1 (by simp [jwkSetFind])⟩

/-- C2: when the refresh fetch performed inside a `validate` call fails, that
call fails with the fetch-failure error (`"JWKS refresh failed"`) and the
previously cached key set is left completely unchanged — both by the failing
`validate` call and by a standalone failing `refresh_jwks`. -/
theorem validate_fetch_failure (token : Token) (cache : List Jwk)
    (href : 1 ≤ (jwtValidate token cache (.error ())).refreshCount) :
    (jwtValidate token cache (.error ())).result = .error .refreshFailed ∧
    (jwtValidate token cache (.error ())).finalJwks = cache ∧
    refreshJwks cache (.error ()) = (.error (), cache) := by
  refine ⟨?_, ?_, rfl⟩ <;>
  · unfold jwtValidate at href ⊢
    cases hdec : decodeToken token cache with
    | ok claims =>
      rw [hdec] at href
      all_goals simp at href
    | error e =>
      rw [hdec] at href
      by_cases hc : strContainsSub e.display "no matching key" = false
      · simp [hc] at href
      · all_goals simp [hc, refreshJwks]

/-- Witness for C2: a concrete token whose `kid` misses an empty cache, with a
failing fetch: the call errs with the refresh-failure error and the cache is
unchanged. -/
theorem validate_fetch_failure_witness :
    (jwtValidate ⟨some ⟨some "k1"⟩, fun _ => none⟩ [⟨some "k2", true⟩]
        (.error ())).result = .error .refreshFailed ∧
    (jwtValidate ⟨some ⟨some "k1"⟩, fun _ => none⟩ [⟨some "k2", true⟩]
        (.error ())).finalJwks = [⟨some "k2", true⟩] := by
  have h := validate_fetch_failure ⟨some ⟨some "k1"⟩, fun _ => none⟩
    [⟨some "k2", true⟩] (by decide)
  exact ⟨h.1, h.2.1⟩

end Mcp
